import Mathlib

/-!
Verification of the go-bamboo client library (plans, raw passthrough).

The Go source is shallowly embedded: each service method becomes a Lean
function parametrised by an environment that supplies the outcomes of the
request-builder (`client.NewRequest` / `client.RawRequest`) and of the
dispatcher (`client.Do` / `client.RawDo`), which the specification treats
as external black-box capabilities.  Each method additionally returns the
ordered trace of HTTP requests it dispatched, so that claims about the
number and shape of requests are statable.  Go `nil` pointers and `nil`
slices are embedded as `Option`; a run that would dereference a `nil`
pointer in Go yields the result `none` ("panic").  All Go `error` values
are embedded as `simpleError` carrying the formatted message.
-/

/-- An HTTP request as built by the client: method, relative path, query
parameters (in insertion order) and headers. -/
structure Request where
  method : String
  path : String
  query : List (String × String)
  headers : List (String × String)
  deriving Repr, DecidableEq

/-- The part of an `http.Response` the embedded code inspects: the numeric
status code and the status text. -/
structure HttpResponse where
  statusCode : Nat
  status : String
  deriving Repr, DecidableEq

/-- Embeds the unexported Go `simpleError` type (and, uniformly, every
other `error` value the embedded code produces) as its message string. -/
structure simpleError where
  message : String
  deriving Repr, DecidableEq

/-- Embeds Go `PlanKey` (plans.go). -/
structure PlanKey where
  key : String
  deriving Repr, DecidableEq

/-- Embeds Go `PlanVariable` (plans.go): key, value, declared type and
secrecy flag. -/
structure PlanVariable where
  key : String
  value : String
  variableType : String
  isPassword : Bool
  deriving Repr, DecidableEq

/-- Embeds Go `VariableList = []PlanVariable` (plans.go). -/
def VariableList := List PlanVariable

/-- Embeds Go `VariableContext` (plans.go).  The Go field `Variable` is
renamed `variableField` because `variable` is reserved in Lean. -/
structure VariableContext where
  size : Int
  maxResults : Int
  startIndex : Int
  variableField : List PlanVariable
  deriving Repr, DecidableEq

/-- Modelled from the spec: `Link` is declared outside the provided source
files; the spec only uses its `href` field (a URL string). -/
structure Link where
  href : String
  deriving Repr, DecidableEq

/-- Embeds Go `Plan` (plans.go).  Pointer-typed fields (`Link`, `PlanKey`,
`VariableContext`) become `Option`; the Go field `Type` is renamed
`typeField` because `Type` is reserved in Lean. -/
structure Plan where
  shortName : String
  shortKey : String
  typeField : String
  enabled : Bool
  link : Option Link
  key : String
  name : String
  planKey : Option PlanKey
  variableContext : Option VariableContext
  deriving Repr, DecidableEq

/-- Modelled from the spec: `CollectionMetadata` is declared outside the
provided source files; per the spec the collection envelope carries
`size`, `max-results` and `start-index`. -/
structure CollectionMetadata where
  size : Int
  maxResult : Int
  startIndex : Int
  deriving Repr, DecidableEq

/-- Modelled from the spec: `ResourceMetadata` is declared outside the
provided source files and none of its fields are used by the verified
operations, so it is embedded as an empty record. -/
structure ResourceMetadata where
  deriving Repr, DecidableEq

/-- Embeds Go `Plans` (plans.go): an embedded `*CollectionMetadata`
pointer and a nilable `PlanList []*Plan` slice. -/
structure Plans where
  metadata : Option CollectionMetadata
  planList : Option (List Plan)
  deriving Repr, DecidableEq

/-- Embeds Go `PlanResponse` (plans.go): an embedded `*ResourceMetadata`
pointer and a nilable `Plans` pointer. -/
structure PlanResponse where
  resourceMetadata : Option ResourceMetadata
  plans : Option Plans
  deriving Repr, DecidableEq

/-- Embeds Go `PlanCreateBranchOptions` (plans.go). -/
structure PlanCreateBranchOptions where
  vcsBranch : String
  deriving Repr, DecidableEq

/-- Embeds `VariableList.GetVarValueE` (plans.go lines 238-245): scans the
list in order and returns the value of the first entry whose key equals
`name`, or a "not found" error. -/
def VariableList_GetVarValueE (vl : List PlanVariable) (name : String) :
    String × Option simpleError :=
  match vl with
  | [] => ("", some { message := "not found" })
  | v :: rest =>
      if v.key == name then (v.value, none)
      else VariableList_GetVarValueE rest name

/-- Embeds `VariableList.GetVarValue` (plans.go lines 248-255) exactly as
written: the loop body returns the literal empty string when the key
matches, and the function returns the empty string after the loop. -/
def VariableList_GetVarValue (vl : List PlanVariable) (name : String) : String :=
  match vl with
  | [] => ""
  | v :: rest =>
      if v.key == name then ""
      else VariableList_GetVarValue rest name

/-- Models a Go `map[string]string` as an association list in which
assignment `m[k] = v` replaces the binding of `k` when one exists and
otherwise appends it. -/
def mapAssign (m : List (String × String)) (k v : String) :
    List (String × String) :=
  match m with
  | [] => [(k, v)]
  | (k', v') :: rest =>
      if k' == k then (k, v) :: rest else (k', v') :: mapAssign rest k v

/-- Reading `m[k]` from the association-list model of a Go map. -/
def mapRead (m : List (String × String)) (k : String) : Option String :=
  match m with
  | [] => none
  | (k', v') :: rest => if k' == k then some v' else mapRead rest k

/-- Embeds `VariableList.ToMap` (plans.go lines 257-263): a fresh map is
filled by assigning `retMap[v.Key] = v.Value` for each entry in order. -/
def VariableList_ToMap (vl : List PlanVariable) : List (String × String) :=
  vl.foldl (fun m v => mapAssign m v.key v.value) []

/-- The value of the last entry of `vl` whose key is `k`, if any: the
specification's "later entry wins" reading of duplicate keys. -/
def lastValue (vl : List PlanVariable) (k : String) : Option String :=
  match vl with
  | [] => none
  | v :: rest =>
      match lastValue rest k with
      | some x => some x
      | none => if v.key == k then some v.value else none

/-- The outcome of running an embedded service method: `result` holds the
Go return values (`none` when the run dereferences a nil pointer and
panics) and `trace` the requests dispatched, in order. -/
structure Run (α : Type) where
  result : Option α
  trace : List Request

/-- Outcome of `client.Do(request, &planResp)` for requests decoded into
a `PlanResponse`: either a transport-level error (with the possibly-nil
response Go returns alongside it) or a response with the decoded body. -/
inductive PlanDo where
  | fail (resp : Option HttpResponse) (message : String)
  | ok (resp : HttpResponse) (decoded : PlanResponse)

/-- Modelled from the spec: the request-builder and dispatcher
(`client.NewRequest`, `client.Do`) live outside the provided source
files; per the spec the builder produces a request for a method and
relative path against the configured base, failing with a construction
error when the base configuration is bad, and the dispatcher sends a
request and decodes the JSON body into the destination.  `newRequestErr`
is the construction failure, if any, and `Do` the outcome of dispatching
each request. -/
structure PlanEnv where
  newRequestErr : Option simpleError
  Do : Request → PlanDo

/-- Modelled from the spec: `client.NewRequest(method, path, nil)` builds
a request for the relative path with no query parameters or headers of
its own, or fails with the configured construction error. -/
def newRequest (err : Option simpleError) (method path : String) :
    Except simpleError Request :=
  match err with
  | some e => .error e
  | none => .ok { method := method, path := path, query := [], headers := [] }

/-- Embeds `PlanService.GetNumber` (plans.go lines 97-119): builds a
`plan.json` request restricted to one result for speed, dispatches it,
and on a 200 response reads the envelope's `Size` through the `Plans`
pointer and the embedded `CollectionMetadata` pointer (a nil pointer
there panics). -/
def PlanService_GetNumber (env : PlanEnv) :
    Run (Int × Option HttpResponse × Option simpleError) :=
  match newRequest env.newRequestErr "GET" "plan.json" with
  | .error e => { result := some (0, none, some e), trace := [] }
  | .ok request =>
      let request := { request with query := request.query ++ [("max-results", "1")] }
      match env.Do request with
      | .fail resp msg =>
          { result := some (0, resp, some { message := msg }), trace := [request] }
      | .ok resp planResp =>
          if resp.statusCode ≠ 200 then
            { result := some (0, some resp,
                some { message := "Getting the number of plans returned " ++ resp.status }),
              trace := [request] }
          else
            match planResp.plans with
            | none => { result := none, trace := [request] }
            | some plans =>
                match plans.metadata with
                | none => { result := none, trace := [request] }
                | some md =>
                    { result := some (md.size, some resp, none), trace := [request] }

/-- Embeds `PlanService.List` (plans.go lines 122-149): runs the
`GetNumber` probe, aborts on its error, then issues a second `plan.json`
request whose `max-results` is the probe's count and on a 200 response
returns the decoded `PlanList` through the `Plans` pointer (which panics
when nil). -/
def PlanService_List (env : PlanEnv) :
    Run (Option (List Plan) × Option HttpResponse × Option simpleError) :=
  let probe := PlanService_GetNumber env
  match probe.result with
  | none => { result := none, trace := probe.trace }
  | some (numPlans, resp, err) =>
      match err with
      | some e => { result := some (none, resp, some e), trace := probe.trace }
      | none =>
          match newRequest env.newRequestErr "GET" "plan.json" with
          | .error e => { result := some (none, none, some e), trace := probe.trace }
          | .ok request =>
              let request :=
                { request with query := request.query ++ [("max-results", toString numPlans)] }
              match env.Do request with
              | .fail resp2 msg =>
                  { result := some (none, resp2, some { message := msg }),
                    trace := probe.trace ++ [request] }
              | .ok resp2 planResp =>
                  if resp2.statusCode ≠ 200 then
                    { result := some (none, some resp2,
                        some { message := "Getting plan information returned " ++ resp2.status }),
                      trace := probe.trace ++ [request] }
                  else
                    match planResp.plans with
                    | none => { result := none, trace := probe.trace ++ [request] }
                    | some plans =>
                        { result := some (plans.planList, some resp2, none),
                          trace := probe.trace ++ [request] }

/-- Iterating a Go slice: a nil slice has length zero and iterates as
empty. -/
def goSlice (s : Option (List Plan)) : List Plan := s.getD []

/-- Embeds `PlanService.ListKeys` (plans.go lines 152-163): on a `List`
error returns nil keys with that error; otherwise collects each plan's
`Key` in order. -/
def PlanService_ListKeys (env : PlanEnv) :
    Run (Option (List String) × Option HttpResponse × Option simpleError) :=
  let run := PlanService_List env
  match run.result with
  | none => { result := none, trace := run.trace }
  | some (plans, response, err) =>
      match err with
      | some e => { result := some (none, response, some e), trace := run.trace }
      | none =>
          { result := some (some ((goSlice plans).map fun p => p.key), response, none),
            trace := run.trace }

/-- Embeds `PlanService.ListNames` (plans.go lines 166-177): on a `List`
error returns nil names with that error; otherwise collects each plan's
`ShortName` in order. -/
def PlanService_ListNames (env : PlanEnv) :
    Run (Option (List String) × Option HttpResponse × Option simpleError) :=
  let run := PlanService_List env
  match run.result with
  | none => { result := none, trace := run.trace }
  | some (plans, response, err) =>
      match err with
      | some e => { result := some (none, response, some e), trace := run.trace }
      | none =>
          { result := some (some ((goSlice plans).map fun p => p.shortName), response, none),
            trace := run.trace }

/-- Embeds `PlanService.NamesMap` (plans.go lines 180-192): on a `List`
error returns a nil map with that error; otherwise assigns
`planMap[p.Key] = p.ShortName` for each plan in order. -/
def PlanService_NamesMap (env : PlanEnv) :
    Run (Option (List (String × String)) × Option HttpResponse × Option simpleError) :=
  let run := PlanService_List env
  match run.result with
  | none => { result := none, trace := run.trace }
  | some (plans, response, err) =>
      match err with
      | some e => { result := some (none, response, some e), trace := run.trace }
      | none =>
          { result := some
              (some ((goSlice plans).foldl (fun m p => mapAssign m p.key p.shortName) []),
               response, none),
            trace := run.trace }

/-- Outcome of `client.Do(request, nil)`: transport error or response,
with no body decoding. -/
inductive BareDo where
  | fail (resp : Option HttpResponse) (message : String)
  | ok (resp : HttpResponse)

/-- Modelled from the spec: environment for operations that dispatch with
no decode destination (`Disable`, `CreateBranch`); fields as in
`PlanEnv`. -/
structure BareEnv where
  newRequestErr : Option simpleError
  Do : Request → BareDo

/-- Embeds `PlanService.Disable` (plans.go lines 195-207): DELETE on the
plan's `enable` sub-resource; the dispatch outcome is returned as is,
with no status-code check of its own. -/
def PlanService_Disable (env : BareEnv) (planKey : String) :
    (Option HttpResponse × Option simpleError) × List Request :=
  match newRequest env.newRequestErr "DELETE" ("plan/" ++ planKey ++ "/enable") with
  | .error e => ((none, some e), [])
  | .ok request =>
      match env.Do request with
      | .fail resp msg => ((resp, some { message := msg }), [request])
      | .ok resp => ((some resp, none), [request])

/-- Modelled from the spec: `emptyStrings` is declared outside the
provided source files; per the spec the branch-creation validation fails
when either the plan key or the branch name is empty, so `emptyStrings`
holds when any of its arguments is the empty string. -/
def emptyStrings (ss : List String) : Bool := ss.any fun s => s == ""

/-- Embeds `PlanService.CreateBranch` (plans.go lines 65-94): validates
the plan key and branch name before building any request, PUTs to the
branch-scoped path with an optional `vcsBranch` query parameter, and
treats exactly status 200 as success. -/
def PlanService_CreateBranch (env : BareEnv) (planKey branchName : String)
    (options : Option PlanCreateBranchOptions) :
    (Bool × Option HttpResponse × Option simpleError) × List Request :=
  if ¬ emptyStrings [planKey, branchName] then
    let u := "plan/" ++ planKey ++ "/branch/" ++ branchName ++ ".json"
    match newRequest env.newRequestErr "PUT" u with
    | .error e => ((false, none, some e), [])
    | .ok request =>
        let request :=
          match options with
          | some opts =>
              if opts.vcsBranch ≠ "" then
                { request with query := request.query ++ [("vcsBranch", opts.vcsBranch)] }
              else request
          | none => request
        match env.Do request with
        | .fail resp msg => ((false, resp, some { message := msg }), [request])
        | .ok resp =>
            if ¬ (resp.statusCode == 200) then
              ((false, some resp,
                some { message := "Create returned " ++ toString resp.statusCode }),
               [request])
            else ((true, some resp, none), [request])
  else
    ((false, none, some { message := "Project key and/or branch name cannot be empty" }), [])

/-- Outcome of `client.Do(request, &planResp)` for requests decoded into
a single `Plan`. -/
inductive PlanGetDo where
  | fail (resp : Option HttpResponse) (message : String)
  | ok (resp : HttpResponse) (decoded : Plan)

/-- Modelled from the spec: environment for `GetVars`, whose dispatch
decodes into a single `Plan`; fields as in `PlanEnv`. -/
structure PlanGetEnv where
  newRequestErr : Option simpleError
  Do : Request → PlanGetDo

/-- Embeds `PlanService.GetVars` (plans.go lines 210-235): GET on
`plan/{key}` with `expand=variableContext`; after a dispatch with no
transport error it compares the decoded context's `MaxResults` with its
`Size` (dereferencing the `VariableContext` pointer, which panics when
it is nil) and returns the variable list, with a partial-results error
exactly when the two differ.  No status-code check is performed. -/
def PlanService_GetVars (env : PlanGetEnv) (planKey : String) :
    Run (Option (List PlanVariable) × Option HttpResponse × Option simpleError) :=
  match newRequest env.newRequestErr "GET" ("plan/" ++ planKey) with
  | .error e => { result := some (none, none, some e), trace := [] }
  | .ok request =>
      let request := { request with query := request.query ++ [("expand", "variableContext")] }
      match env.Do request with
      | .fail resp msg =>
          { result := some (none, resp, some { message := msg }), trace := [request] }
      | .ok resp plan =>
          match plan.variableContext with
          | none => { result := none, trace := [request] }
          | some vc =>
              if vc.maxResults ≠ vc.size then
                { result := some (some vc.variableField, some resp,
                    some { message := "not all results were returned: " ++ toString vc.size
                             ++ " out of " ++ toString vc.maxResults }),
                  trace := [request] }
              else
                { result := some (some vc.variableField, some resp, none),
                  trace := [request] }

/-- The part of the raw response `GetRaw` inspects: the status code and
the outcome of draining the body stream with `ReadAll`. -/
structure RawHttpResponse where
  statusCode : Nat
  bodyRead : Except String String
  deriving Repr

/-- Outcome of `client.RawDo(request, nil)`: transport error or a raw
response. -/
inductive RawDoResult where
  | fail (resp : Option HttpResponse) (message : String)
  | ok (resp : RawHttpResponse)

/-- Modelled from the spec: the raw pipeline (`client.BaseUrl`,
`client.RawRequest`, `client.RawDo`) lives outside the provided source
files; `baseUrl` is the configured base-URL string, `rawRequestErr` the
construction failure, if any, and `RawDo` each request's outcome. -/
structure RawEnv where
  baseUrl : String
  rawRequestErr : Option simpleError
  RawDo : Request → RawDoResult

/-- Go `strings.TrimPrefix`: removes the given leading substring when
present, and otherwise returns the string unchanged. -/
def goTrim (s pre : String) : String :=
  if pre.isPrefixOf s then s.drop pre.length else s

/-- Embeds `RawService.GetRaw` (raw.go lines 19-44): strips the
configured base URL from the path, builds a GET with a form-encoded
content type, dispatches it, and returns the drained body on a 200
response.  On a transport error or a non-200 status the response is
discarded (nil); only a body-read failure returns the response alongside
the error. -/
def RawService_GetRaw (env : RawEnv) (path : String) :
    (String × Option RawHttpResponse × Option simpleError) × List Request :=
  let path := goTrim path env.baseUrl
  match env.rawRequestErr with
  | some e => (("", none, some e), [])
  | none =>
      let request : Request :=
        { method := "GET", path := path, query := [],
          headers := [("Content-Type", "application/x-www-form-urlencoded")] }
      match env.RawDo request with
      | .fail _ msg => (("", none, some { message := msg }), [request])
      | .ok resp =>
          if ¬ (resp.statusCode == 200) then
            (("", none, some { message := "Get returned " ++ toString resp.statusCode }),
             [request])
          else
            match resp.bodyRead with
            | .error e => (("", some resp, some { message := "Read body " ++ e }), [request])
            | .ok body => ((body, some resp, none), [request])

/-- The probe request `GetNumber` dispatches: `plan.json` restricted to
one result. -/
def probeRequest : Request :=
  { method := "GET", path := "plan.json", query := [("max-results", "1")], headers := [] }

/-- The full-fetch request `List` dispatches for a probe count `n`. -/
def fetchRequest (n : Int) : Request :=
  { method := "GET", path := "plan.json",
    query := [("max-results", toString n)], headers := [] }

/-- The request `GetVars` dispatches for a plan key. -/
def getVarsRequest (planKey : String) : Request :=
  { method := "GET", path := "plan/" ++ planKey,
    query := [("expand", "variableContext")], headers := [] }

/-- The request `Disable` dispatches for a plan key. -/
def disableRequest (planKey : String) : Request :=
  { method := "DELETE", path := "plan/" ++ planKey ++ "/enable",
    query := [], headers := [] }

/-- The request `GetRaw` dispatches for a path. -/
def rawRequest (env : RawEnv) (path : String) : Request :=
  { method := "GET", path := goTrim path env.baseUrl, query := [],
    headers := [("Content-Type", "application/x-www-form-urlencoded")] }

/-- A 200 response. -/
def respOk : HttpResponse := { statusCode := 200, status := "200 OK" }

/-- A 401 response. -/
def resp401 : HttpResponse := { statusCode := 401, status := "401 Unauthorized" }

/-- A sample plan. -/
def planA : Plan :=
  { shortName := "Alpha", shortKey := "A", typeField := "chain", enabled := true,
    link := none, key := "PR-A", name := "Proj - Alpha", planKey := none,
    variableContext := none }

/-- A second sample plan. -/
def planB : Plan :=
  { shortName := "Beta", shortKey := "B", typeField := "chain", enabled := false,
    link := none, key := "PR-B", name := "Proj - Beta", planKey := none,
    variableContext := none }

/-- A dispatcher under which the probe reports two plans and the full
fetch returns them. -/
def envListOk : PlanEnv :=
  { newRequestErr := none,
    Do := fun req =>
      if req.query = [("max-results", "1")] then
        .ok respOk
          { resourceMetadata := none,
            plans := some { metadata := some { size := 2, maxResult := 1, startIndex := 0 },
                            planList := some [planA] } }
      else
        .ok respOk
          { resourceMetadata := none,
            plans := some { metadata := some { size := 2, maxResult := 2, startIndex := 0 },
                            planList := some [planA, planB] } } }

/-- A dispatcher that answers every plan-list request with a 401 response
and no decoded payload. -/
def env401 : PlanEnv :=
  { newRequestErr := none,
    Do := fun _ => .ok resp401 { resourceMetadata := none, plans := none } }

/-- A sample plan variable. -/
def varX : PlanVariable :=
  { key := "v", value := "1", variableType := "PLAN", isPassword := false }

/-- A variable context whose page size is smaller than its total. -/
def vcMismatch : VariableContext :=
  { size := 5, maxResults := 2, startIndex := 0, variableField := [varX] }

/-- A plan carrying the truncated variable context. -/
def planWithVars : Plan :=
  { shortName := "Alpha", shortKey := "A", typeField := "chain", enabled := true,
    link := none, key := "PR-A", name := "Proj - Alpha", planKey := none,
    variableContext := some vcMismatch }

/-- A `GetVars` dispatcher decoding the truncated-context plan. -/
def envVars : PlanGetEnv :=
  { newRequestErr := none, Do := fun _ => .ok respOk planWithVars }

/-- A `GetVars` dispatcher for a 404 whose body decodes to a plan with no
variable context. -/
def envVarsNil : PlanGetEnv :=
  { newRequestErr := none,
    Do := fun _ => .ok { statusCode := 404, status := "404 Not Found" } planA }

/-- A bare dispatcher answering every request with a 500 response. -/
def envBare500 : BareEnv :=
  { newRequestErr := none,
    Do := fun _ => .ok { statusCode := 500, status := "500 Internal Server Error" } }

/-- A raw dispatcher that fails at the transport level. -/
def envRawFail : RawEnv :=
  { baseUrl := "http://bamboo.local/", rawRequestErr := none,
    RawDo := fun _ => .fail none "connection refused" }

/-- A raw response with status 404 and a readable body. -/
def rawResp404 : RawHttpResponse := { statusCode := 404, bodyRead := .ok "nf" }

/-- A raw dispatcher answering 404. -/
def envRaw404 : RawEnv :=
  { baseUrl := "http://bamboo.local/", rawRequestErr := none,
    RawDo := fun _ => .ok rawResp404 }

theorem mapRead_mapAssign (m : List (String × String)) (k v k' : String) :
    mapRead (mapAssign m k v) k' =
      if k == k' then some v else mapRead m k' := by
  induction m with
  | nil => simp [mapAssign, mapRead]
  | cons p rest ih =>
      obtain ⟨pk, pv⟩ := p
      simp only [mapAssign]
      by_cases h1 : pk == k
      · simp only [h1, if_pos rfl, mapRead]
        by_cases h2 : k == k'
        · simp [h2]
        · have h3 : ¬(pk == k') := by
            intro hc
            apply h2
            have e1 : pk = k := by simpa using h1
            have e2 : pk = k' := by simpa using hc
            simp [← e1, e2]
          simp [h2, h3, mapRead]
      · simp only [h1, if_neg, mapRead]
        by_cases h2 : pk == k'
        · have e2 : pk = k' := by simpa using h2
          have h3 : ¬(k == k') := by
            intro hc
            apply h1
            have e1 : k = k' := by simpa using hc
            simp [e2, ← e1]
          simp [h2, h3]
        · simp [h2, ih]

theorem mapRead_toMap_fold (vl : List PlanVariable)
    (m : List (String × String)) (k : String) :
    mapRead (vl.foldl (fun m v => mapAssign m v.key v.value) m) k =
      match lastValue vl k with
      | some x => some x
      | none => mapRead m k := by
  induction vl generalizing m with
  | nil => simp [lastValue]
  | cons v rest ih =>
      simp only [List.foldl_cons, lastValue, ih, mapRead_mapAssign]
      cases h : lastValue rest k with
      | some x => simp
      | none =>
          by_cases hk : v.key == k
          · simp [hk]
          · simp [hk]

theorem toMap_fold_scrub (vl : List PlanVariable) (m : List (String × String)) :
    (vl.map fun v => { v with variableType := "", isPassword := false }).foldl
        (fun m v => mapAssign m v.key v.value) m
      = vl.foldl (fun m v => mapAssign m v.key v.value) m := by
  induction vl generalizing m with
  | nil => rfl
  | cons v rest ih => simp [ih]

/-- C1: evaluation of `VariableList.GetVarValue` at a list that does hold
an entry with the looked-up key: the silent-default lookup returns the
empty string even though the entry is present with value `"x"`, while the
strict variant `GetVarValueE` returns that value with no error.  This
exhibits the divergence between the code and its documented behaviour. -/
theorem getVarValue_present_key_yields_empty :
    VariableList_GetVarValue
        [{ key := "a", value := "x", variableType := "", isPassword := false }] "a" = ""
      ∧ VariableList_GetVarValueE
        [{ key := "a", value := "x", variableType := "", isPassword := false }] "a"
        = ("x", none) := by
  constructor <;> rfl

/-- C8: `ToMap` collapses a variable list into a key-to-value map with
last-key-wins semantics: reading any key from the result yields the value
of the last entry carrying that key, and the declared types and secrecy
flags are discarded (scrubbing them from every entry leaves the map
unchanged). -/
theorem toMap_last_key_wins (vl : List PlanVariable) (k : String) :
    mapRead (VariableList_ToMap vl) k = lastValue vl k
      ∧ VariableList_ToMap
          (vl.map fun v => { v with variableType := "", isPassword := false })
        = VariableList_ToMap vl := by
  constructor
  · rw [VariableList_ToMap, mapRead_toMap_fold]
    cases lastValue vl k <;> simp [mapRead]
  · exact toMap_fold_scrub vl []

theorem getNumber_newRequest_none (env : PlanEnv) (N : Int) (r1 : Option HttpResponse)
    (hprobe : (PlanService_GetNumber env).result = some (N, r1, none)) :
    env.newRequestErr = none := by
  cases hn : env.newRequestErr with
  | none => rfl
  | some e => simp [PlanService_GetNumber, newRequest, hn] at hprobe

theorem getNumber_trace (env : PlanEnv) (hn : env.newRequestErr = none) :
    (PlanService_GetNumber env).trace = [probeRequest] := by
  simp only [PlanService_GetNumber, newRequest, hn, List.nil_append]
  repeat first
  | rfl
  | split

/-- C2: for every plan count `N ≥ 0` returned by the count probe, a
successful `List` run dispatches exactly two requests: first the probe,
whose `max-results` query value is `"1"` (the probe reads only the
envelope's size), then a second list request whose `max-results` query
value is `N`; the returned plan list is verbatim the `PlanList` of the
second request's decoded envelope. -/
theorem list_two_requests (env : PlanEnv) (N : Int) (hN : 0 ≤ N)
    (r1 : Option HttpResponse)
    (hprobe : (PlanService_GetNumber env).result = some (N, r1, none))
    (plans : Option (List Plan)) (r2 : Option HttpResponse)
    (hok : (PlanService_List env).result = some (plans, r2, none)) :
    (PlanService_List env).trace = [probeRequest, fetchRequest N]
      ∧ probeRequest.query = [("max-results", "1")]
      ∧ (fetchRequest N).query = [("max-results", toString N)]
      ∧ ∃ resp planResp pl,
          env.Do (fetchRequest N) = .ok resp planResp
            ∧ planResp.plans = some pl
            ∧ plans = pl.planList
            ∧ r2 = some resp := by
  have hn := getNumber_newRequest_none env N r1 hprobe
  have htr := getNumber_trace env hn
  simp only [PlanService_List, hprobe, hn, newRequest, List.nil_append, htr] at hok ⊢
  cases hdo : env.Do (fetchRequest N) with
  | fail resp2 msg =>
      simp only [fetchRequest] at hdo
      rw [hdo] at hok
      simp at hok
  | ok resp2 pr2 =>
      simp only [fetchRequest] at hdo
      simp only [hdo] at hok ⊢
      by_cases hs : resp2.statusCode ≠ 200
      · rw [if_pos hs] at hok
        simp at hok
      · rw [if_neg hs] at hok ⊢
        cases hp : pr2.plans with
        | none =>
            simp only [hp] at hok
            exact Option.noConfusion hok
        | some pl =>
            simp only [hp, Option.some.injEq, Prod.mk.injEq, and_true] at hok ⊢
            exact ⟨rfl, rfl, rfl, resp2, pr2, pl, rfl, hp, hok.1.symm, hok.2.symm⟩

/-- Witness for C2: under the concrete dispatcher `envListOk` the probe
reports two plans and the successful listing dispatches exactly the probe
and a `max-results=2` fetch. -/
theorem list_two_requests_witness :
    (PlanService_List envListOk).trace = [probeRequest, fetchRequest 2]
      ∧ (fetchRequest 2).query = [("max-results", "2")] := by
  have h := list_two_requests envListOk 2 (by decide) (some respOk) rfl
      (some [planA, planB]) (some respOk) rfl
  exact ⟨h.1, h.2.2.1⟩

theorem list_probe_error (env : PlanEnv) (n : Int) (r : Option HttpResponse)
    (e : simpleError)
    (h : (PlanService_GetNumber env).result = some (n, r, some e)) :
    PlanService_List env =
      { result := some (none, r, some e), trace := (PlanService_GetNumber env).trace } := by
  simp only [PlanService_List, h]

/-- C3: whenever the count probe's dispatch yields a transport error or a
response whose status is not 200, `List` dispatches no second request:
its trace is just the probe request and it returns a nil plan list
together with the probe's response and the probe's error. -/
theorem list_probe_failure (env : PlanEnv)
    (hn : env.newRequestErr = none)
    (hkind : (∃ r0 msg, env.Do probeRequest = .fail r0 msg)
      ∨ (∃ resp pr, env.Do probeRequest = .ok resp pr ∧ resp.statusCode ≠ 200))
    (n : Int) (r : Option HttpResponse) (e : simpleError)
    (hprobe : (PlanService_GetNumber env).result = some (n, r, some e)) :
    PlanService_List env =
      { result := some (none, r, some e), trace := [probeRequest] } := by
  have h := list_probe_error env n r e hprobe
  rw [getNumber_trace env hn] at h
  exact h

/-- Witness for C3: under the concrete dispatcher `env401`, which answers
the probe with a 401 response, `List` dispatches only the probe request
and propagates the probe's error. -/
theorem list_probe_failure_witness :
    PlanService_List env401 =
      { result := some (none, some resp401,
          some { message := "Getting the number of plans returned 401 Unauthorized" }),
        trace := [probeRequest] } :=
  list_probe_failure env401 rfl
    (Or.inr ⟨resp401, { resourceMetadata := none, plans := none }, rfl, by decide⟩)
    0 (some resp401)
    { message := "Getting the number of plans returned 401 Unauthorized" } rfl

/-- C7: `ListKeys`, `ListNames` and `NamesMap` are pure projections of
`List`: when `List` succeeds they return the plans' keys in order, the
plans' short names in order, and the key-to-short-name map, each with
`List`'s response and trace; when `List` fails they return a nil result
together with `List`'s error and response, never partial data. -/
theorem projections_of_list (env : PlanEnv) :
    (∀ plans resp,
        (PlanService_List env).result = some (plans, resp, none) →
          PlanService_ListKeys env =
              { result := some (some ((goSlice plans).map fun p => p.key), resp, none),
                trace := (PlanService_List env).trace }
            ∧ PlanService_ListNames env =
              { result := some (some ((goSlice plans).map fun p => p.shortName), resp, none),
                trace := (PlanService_List env).trace }
            ∧ PlanService_NamesMap env =
              { result := some
                  (some ((goSlice plans).foldl (fun m p => mapAssign m p.key p.shortName) []),
                   resp, none),
                trace := (PlanService_List env).trace })
      ∧ (∀ plans resp e,
          (PlanService_List env).result = some (plans, resp, some e) →
            PlanService_ListKeys env =
                { result := some (none, resp, some e), trace := (PlanService_List env).trace }
              ∧ PlanService_ListNames env =
                { result := some (none, resp, some e), trace := (PlanService_List env).trace }
              ∧ PlanService_NamesMap env =
                { result := some (none, resp, some e), trace := (PlanService_List env).trace }) := by
  constructor
  · intro plans resp h
    refine ⟨?_, ?_, ?_⟩ <;>
      simp only [PlanService_ListKeys, PlanService_ListNames, PlanService_NamesMap, h]
  · intro plans resp e h
    refine ⟨?_, ?_, ?_⟩ <;>
      simp only [PlanService_ListKeys, PlanService_ListNames, PlanService_NamesMap, h]

/-- Witness for C7: under `envListOk` the projections succeed and return
the keys and names of the two fetched plans, and under `env401` they all
return a nil result with the probe's error. -/
theorem projections_of_list_witness :
    PlanService_ListKeys envListOk =
        { result := some (some ["PR-A", "PR-B"], some respOk, none),
          trace := [probeRequest, fetchRequest 2] }
      ∧ PlanService_ListNames envListOk =
        { result := some (some ["Alpha", "Beta"], some respOk, none),
          trace := [probeRequest, fetchRequest 2] }
      ∧ PlanService_NamesMap envListOk =
        { result := some (some [("PR-A", "Alpha"), ("PR-B", "Beta")], some respOk, none),
          trace := [probeRequest, fetchRequest 2] }
      ∧ PlanService_ListKeys env401 =
        { result := some (none, some resp401,
            some { message := "Getting the number of plans returned 401 Unauthorized" }),
          trace := [probeRequest] } := by
  have hs := (projections_of_list envListOk).1 (some [planA, planB]) (some respOk) rfl
  have hf := (projections_of_list env401).2 none (some resp401)
      { message := "Getting the number of plans returned 401 Unauthorized" } rfl
  exact ⟨hs.1, hs.2.1, hs.2.2, hf.1⟩

/-- C4: for every dispatched and decoded `GetVars` response whose plan
carries a variable context, the call returns the decoded variable
sequence in both the matching and the mismatching case, together with an
error that is non-nil exactly when the context's `max-results` differs
from its `size`. -/
theorem getVars_truncated_results (env : PlanGetEnv) (planKey : String)
    (resp : HttpResponse) (plan : Plan) (vc : VariableContext)
    (hn : env.newRequestErr = none)
    (hdo : env.Do (getVarsRequest planKey) = .ok resp plan)
    (hvc : plan.variableContext = some vc) :
    (PlanService_GetVars env planKey).result =
        some (some vc.variableField, some resp,
          if vc.maxResults = vc.size then none
          else some { message := "not all results were returned: " ++ toString vc.size
                        ++ " out of " ++ toString vc.maxResults })
      ∧ ((if vc.maxResults = vc.size then (none : Option simpleError)
          else some { message := "not all results were returned: " ++ toString vc.size
                        ++ " out of " ++ toString vc.maxResults }) ≠ none
            ↔ vc.maxResults ≠ vc.size) := by
  constructor
  · simp only [PlanService_GetVars, newRequest, hn, List.nil_append]
    simp only [getVarsRequest] at hdo
    simp only [hdo, hvc]
    by_cases hm : vc.maxResults = vc.size
    · rw [if_neg (by simpa using hm), if_pos hm]
    · rw [if_pos hm, if_neg hm]
  · by_cases hm : vc.maxResults = vc.size
    · simp [hm]
    · simp [hm]

/-- Witness for C4: under `envVars`, whose decoded plan carries a context
with `max-results` 2 but `size` 5, `GetVars` returns the single decoded
variable together with the partial-results error. -/
theorem getVars_truncated_results_witness :
    (PlanService_GetVars envVars "PR-A").result =
      some (some [varX], some respOk,
        some { message := "not all results were returned: 5 out of 2" }) := by
  have h := (getVars_truncated_results envVars "PR-A" respOk planWithVars vcMismatch
      rfl rfl rfl).1
  simpa [vcMismatch] using h

/-- C9: `GetVars` checks neither the response status code nor whether the
decoded plan carries a variable context: whenever the dispatch yields a
response — of any status — whose decoded plan has a nil
`VariableContext`, the run dereferences a nil pointer (its embedded
result is `none`, a panic) instead of returning an error. -/
theorem getVars_nil_context_panics (env : PlanGetEnv) (planKey : String)
    (resp : HttpResponse) (plan : Plan)
    (hn : env.newRequestErr = none)
    (hdo : env.Do (getVarsRequest planKey) = .ok resp plan)
    (hvc : plan.variableContext = none) :
    (PlanService_GetVars env planKey).result = none := by
  simp only [PlanService_GetVars, newRequest, hn, List.nil_append]
  simp only [getVarsRequest] at hdo
  simp only [hdo, hvc]

/-- Witness for C9: under `envVarsNil`, a 404 response whose body decodes
to a plan with no variable context, the `GetVars` run panics. -/
theorem getVars_nil_context_panics_witness :
    (PlanService_GetVars envVarsNil "PR-A").result = none :=
  getVars_nil_context_panics envVarsNil "PR-A"
    { statusCode := 404, status := "404 Not Found" } planA rfl rfl rfl

/-- C5: whenever the plan key or the branch name is empty, `CreateBranch`
returns `false` and the validation error, with an empty trace: no request
is built or dispatched. -/
theorem createBranch_empty_validation (env : BareEnv) (planKey branchName : String)
    (options : Option PlanCreateBranchOptions)
    (h : planKey = "" ∨ branchName = "") :
    PlanService_CreateBranch env planKey branchName options =
      ((false, none, some { message := "Project key and/or branch name cannot be empty" }),
       []) := by
  have he : emptyStrings [planKey, branchName] = true := by
    cases h with
    | inl h => simp [emptyStrings, h]
    | inr h => simp [emptyStrings, h]
  simp [PlanService_CreateBranch, he]

/-- Witness for C5: both an empty plan key and an empty branch name make
`CreateBranch` fail locally under the concrete dispatcher `envBare500`,
with no dispatched request. -/
theorem createBranch_empty_validation_witness :
    PlanService_CreateBranch envBare500 "" "b" none =
        ((false, none, some { message := "Project key and/or branch name cannot be empty" }),
         [])
      ∧ PlanService_CreateBranch envBare500 "p" "" none =
        ((false, none, some { message := "Project key and/or branch name cannot be empty" }),
         []) :=
  ⟨createBranch_empty_validation envBare500 "" "b" none (Or.inl rfl),
   createBranch_empty_validation envBare500 "p" "" none (Or.inr rfl)⟩

/-- C6: for every plan key and every response status code, `Disable`
returns a nil error whenever the dispatch itself reports no transport
error: it performs no status-code validation of its own. -/
theorem disable_no_status_check (env : BareEnv) (planKey : String)
    (resp : HttpResponse)
    (hn : env.newRequestErr = none)
    (hdo : env.Do (disableRequest planKey) = .ok resp) :
    PlanService_Disable env planKey = ((some resp, none), [disableRequest planKey]) := by
  simp only [PlanService_Disable, newRequest, hn]
  simp only [disableRequest] at hdo
  simp only [hdo]
  rfl

/-- Witness for C6: under `envBare500`, which answers with a 500 response
and no transport error, `Disable` still returns a nil error. -/
theorem disable_no_status_check_witness :
    PlanService_Disable envBare500 "PR-A" =
      ((some { statusCode := 500, status := "500 Internal Server Error" }, none),
       [disableRequest "PR-A"]) :=
  disable_no_status_check envBare500 "PR-A"
    { statusCode := 500, status := "500 Internal Server Error" } rfl rfl

/-- C10: `GetRaw` returns the triple (empty string, nil response, non-nil
error) on every transport error and on every response whose status is
not 200 — the response object is discarded in both cases — and a non-nil
response accompanies an error only when the status was 200 and draining
the body failed. -/
theorem getRaw_discards_response (env : RawEnv) (path : String)
    (hn : env.rawRequestErr = none) :
    (∀ r msg, env.RawDo (rawRequest env path) = .fail r msg →
        RawService_GetRaw env path =
          (("", none, some { message := msg }), [rawRequest env path]))
      ∧ (∀ resp, env.RawDo (rawRequest env path) = .ok resp → resp.statusCode ≠ 200 →
          RawService_GetRaw env path =
            (("", none, some { message := "Get returned " ++ toString resp.statusCode }),
             [rawRequest env path]))
      ∧ (∀ s resp e, (RawService_GetRaw env path).1 = (s, some resp, some e) →
          resp.statusCode = 200 ∧ ∃ msg, resp.bodyRead = .error msg) := by
  refine ⟨?_, ?_, ?_⟩
  · intro r msg hdo
    simp only [RawService_GetRaw, hn]
    simp only [rawRequest] at hdo
    simp only [hdo]
    rfl
  · intro resp hdo hs
    simp only [RawService_GetRaw, hn]
    simp only [rawRequest] at hdo
    simp only [hdo]
    rw [if_pos (by simpa using hs)]
    rfl
  · intro s resp e h
    simp only [RawService_GetRaw, hn] at h
    cases hdo : env.RawDo (rawRequest env path) with
    | fail r msg =>
        simp only [rawRequest] at hdo
        simp only [hdo] at h
        simp at h
    | ok resp' =>
        simp only [rawRequest] at hdo
        simp only [hdo] at h
        by_cases hs : resp'.statusCode = 200
        · rw [if_neg (by simpa using hs)] at h
          cases hb : resp'.bodyRead with
          | error msg =>
              simp only [hb, Prod.mk.injEq, Option.some.injEq] at h
              exact ⟨h.2.1 ▸ hs, msg, h.2.1 ▸ hb⟩
          | ok body =>
              simp only [hb, Prod.mk.injEq] at h
              exact absurd h.2.2 (by simp)
        · rw [if_pos (by simpa using hs)] at h
          simp at h

/-- Witness for C10: under the failing transport `envRawFail` the response
is nil alongside the transport error, and under `envRaw404`, which
answers 404, the response is likewise discarded. -/
theorem getRaw_discards_response_witness :
    RawService_GetRaw envRawFail "x" =
        (("", none, some { message := "connection refused" }), [rawRequest envRawFail "x"])
      ∧ RawService_GetRaw envRaw404 "x" =
        (("", none, some { message := "Get returned 404" }), [rawRequest envRaw404 "x"]) :=
  ⟨(getRaw_discards_response envRawFail "x" rfl).1 none "connection refused" rfl,
   (getRaw_discards_response envRaw404 "x" rfl).2.1 rawResp404 rfl (by decide)⟩
